import Mathlib

/-!
# Verification of the aeropress reconcile/cleanup workflow

Shallow embedding of the AWS-call orchestration code in `aeropress/aws/`
(`log.py`, `alarm.py`, `metric.py`, `scale.py`, `service.py`, `task.py`).

Modelling conventions:
* A paginated remote API is modelled by the list of responses the server
  would return on successive calls: each `Page` carries the page's items and
  the optional continuation token of that response.  A lister walks this
  list exactly as the Python `while True` loop walks the successive
  responses, stopping at the first response without a token.
* Remote side effects are modelled as a trace of `Call` events; request
  payload fields that no modelled logic inspects are elided from the events.
* A Python `try/except` call site is modelled by a function over the
  `CallOutcome` of the underlying call (`success`, `clientError code`, or a
  non-`ClientError` exception `fatal`).
* Python dict keys that are optional / checked for falsiness are `Option`
  fields; Python `set` values are lists combined with `dedup` /
  `List.toFinset`, membership being string equality.
-/

namespace Aeropress

/-- One response of a paginated describe/list API: the items of this page and
the continuation token of the response (`none` when the response omits it). -/
structure Page (α : Type) where
  items : List α
  token : Option String
  deriving DecidableEq

/-- Outcome of a single remote call at a `try/except` site. -/
inductive CallOutcome where
  | success
  | clientError (code : String)
  | fatal
  deriving DecidableEq

/-! ## Configuration data model (from the YAML-derived dicts the code reads) -/

/-- `logConfiguration.options` of a container definition (`task.py`, `log.py`). -/
structure LogOptions where
  awslogsGroup : String
  awslogsStreamPfx : String
  deriving DecidableEq

/-- `logConfiguration` of a container definition; `options` is checked for
falsiness before use (`task.py:147`, `log.py:40`). -/
structure LogConfiguration where
  options : Option LogOptions
  deriving DecidableEq

/-- A container definition as read by `_validate_log_definitions` and
`_get_defined_log_group_names`; payload-only fields (image, memory, ...) are
elided. -/
structure ContainerDef where
  name : String
  logConfiguration : Option LogConfiguration
  deriving DecidableEq

/-- A task definition dict (`task.py`). -/
structure TaskDef where
  family : String
  containerDefinitions : List ContainerDef
  deriving DecidableEq

/-- One step-scaling policy of a service's `scale.policies` list (`scale.py`). -/
structure ScalePolicyCfg where
  policyName : String
  deriving DecidableEq

/-- A service's `scale` dict (`scale.py`). -/
structure ScaleCfg where
  minCapacity : Nat
  maxCapacity : Nat
  policies : List ScalePolicyCfg
  deriving DecidableEq

/-- A service's `alarm` dict (`alarm.py`); action lists hold policy names. -/
structure AlarmCfg where
  alarmName : String
  okActions : List String
  alarmActions : List String
  deriving DecidableEq

/-- A service's `metric` dict, flattened to the two fields the code reads
(`MetricStat.Metric.Namespace` and `MetricStat.Metric.MetricName`). -/
structure MetricCfg where
  ns : String
  metricName : String
  deriving DecidableEq

/-- A service dict as consumed by `service.py` / `scale.py` / `alarm.py` /
`metric.py`; payload-only fields (desiredCount, launchType, ...) are elided. -/
structure ServiceCfg where
  serviceName : String
  cluster : String
  scale : Option ScaleCfg
  alarm : Option AlarmCfg
  metric : Option MetricCfg
  deriving DecidableEq

/-- An existing scaling policy as returned by `describe_scaling_policies`. -/
structure ExistingPolicy where
  policyName : String
  resourceId : String
  policyARN : String
  deriving DecidableEq

/-- The remote environment: the responses the various paginated listers
would receive.  `serviceArnPages` is per cluster name. -/
structure Env where
  serviceArnPages : String → List (Page String)
  scalingPolicyPages : List (Page ExistingPolicy)
  metricPages : List (Page MetricCfg)
  alarmPages : List (Page String)
  logGroupPages : List (Page String)

/-- Remote calls issued by the pipeline, as a trace of events.  One
`listServices`/`describeScalingPolicies`/`listMetrics`/`describeAlarms`
event stands for the page requests of the corresponding pagination loop. -/
inductive Call where
  | listServices (cluster : String)
  | createService (name : String)
  | updateService (name : String) (forceNewDeployment : Bool)
  | registerScalableTarget (resourceId : String)
  | deregisterScalableTarget (resourceId : String)
  | describeScalingPolicies
  | putScalingPolicy (policyName resourceId : String)
  | deleteScalingPolicy (policyName resourceId : String)
  | listMetrics
  | putMetricData (ns metricName : String)
  | describeAlarms
  | deleteAlarms (alarmNames : List String)
  | putMetricAlarm (alarmName : String)
  | createLogGroup (name : String)
  | putRetentionPolicy (name : String) (days : Nat)
  | deleteLogGroup (name : String)
  | registerTaskDefinition (family : String)
  deriving DecidableEq

/-! ## Paginated listers -/

/-- Python `s.startswith(p)`, in a form the kernel evaluates. -/
def strStartsWith (s p : String) : Bool :=
  p.data.isPrefixOf s.data

/-- Helper for `splitSlash`: accumulates the current segment (reversed). -/
def splitSlashGo : List Char → List Char → List (List Char)
  | [], cur => [cur.reverse]
  | c :: rest, cur =>
    if c = '/' then cur.reverse :: splitSlashGo rest []
    else splitSlashGo rest (c :: cur)

/-- Python `s.split('/')`: always a nonempty list of segments. -/
def splitSlash (s : String) : List String :=
  (splitSlashGo s.data []).map String.mk

/-- `log.py:213 _get_existing_log_group_names` keeps only names splitting into
exactly 3 `/`-separated parts with second part `ecs`. -/
def isEcsLogGroupName (name : String) : Bool :=
  let parts := splitSlash name
  parts.length == 3 && parts.getD 1 "" == "ecs"

/-- `log.py:213 _get_existing_log_group_names`: walk the responses, keep the
convention-matching names of each page, stop at the first response without a
`nextToken`. -/
def getExistingLogGroupNames : List (Page String) → List String
  | [] => []
  | p :: rest =>
    p.items.filter isEcsLogGroupName ++
      (match p.token with
       | none => []
       | some _ => getExistingLogGroupNames rest)

/-- `alarm.py:64 _get_existing_alarms`: keep the `ecs:`-prefixed alarm names
of each page (each alarm dict is modelled by its `AlarmName`). -/
def getExistingAlarms : List (Page String) → List String
  | [] => []
  | p :: rest =>
    p.items.filter (fun a => strStartsWith a "ecs:") ++
      (match p.token with
       | none => []
       | some _ => getExistingAlarms rest)

/-- `metric.py:24 _get_existing_metrics`: collect `m['MetricName']` of every
page's metrics (the namespace is dropped). -/
def getExistingMetricNames : List (Page MetricCfg) → List String
  | [] => []
  | p :: rest =>
    p.items.map (fun m => m.metricName) ++
      (match p.token with
       | none => []
       | some _ => getExistingMetricNames rest)

/-- `scale.py:26 get_existing_scaling_policies`: plain accumulation of every
page's `ScalingPolicies`. -/
def getExistingScalingPolicies : List (Page ExistingPolicy) → List ExistingPolicy
  | [] => []
  | p :: rest =>
    p.items ++
      (match p.token with
       | none => []
       | some _ => getExistingScalingPolicies rest)

/-- Python `arn.split('/')[-1]` (`service.py:50`, `log.py:87`, `log.py:145`). -/
def lastSegment (arn : String) : String :=
  (splitSlash arn).getLastD ""

/-- `service.py:38-56`: the pagination loop of `_get_existing_services` for a
single cluster; each page's service ARNs are reduced to their last `/`
segment. -/
def getClusterServiceNames : List (Page String) → List String
  | [] => []
  | p :: rest =>
    p.items.map lastSegment ++
      (match p.token with
       | none => []
       | some _ => getClusterServiceNames rest)

/-- `service.py:34`: `set([service_dict['cluster'] for ...])`, modelled as the
deduplicated cluster list. -/
def clusterNames (services : List ServiceCfg) : List String :=
  (services.map (fun s => s.cluster)).dedup

/-- `service.py:33 _get_existing_services`: collect the service names of every
distinct cluster. -/
def getExistingServices (services : List ServiceCfg) (env : Env) : List String :=
  (clusterNames services).flatMap (fun c => getClusterServiceNames (env.serviceArnPages c))

/-- `log.py:186-206`: the `describe_log_streams` loop of `_get_existing_logs`
for one log group.  Faithful to the source: `log_streams.extend(...)` sits in
the `else` (no-token) branch only, so only the first response's items are
accumulated, though the loop still follows tokens.  The second argument is
the `next_token` variable, the third the `log_streams` accumulator. -/
def getLogStreamsLoop : List (Page String) → Option String → List String → List String
  | [], _, acc => acc
  | p :: rest, tok, acc =>
    let acc' := match tok with
      | some _ => acc
      | none => acc ++ p.items
    match p.token with
    | none => acc'
    | some t => getLogStreamsLoop rest (some t) acc'

/-- `log.py:186-206` entry: `next_token = None`, `log_streams = []`. -/
def getLogStreams (pages : List (Page String)) : List String :=
  getLogStreamsLoop pages none []

/-- What the Paginated Lister contract promises for the visited pages: the
concatenation, in order, of the items of every page up to and including the
first token-less response. -/
def visitedItems : List (Page String) → List String
  | [] => []
  | p :: rest =>
    p.items ++
      (match p.token with
       | none => []
       | some _ => visitedItems rest)

/-! ## Resource differ (`log.py:17,29`, `service.py:66`) -/

/-- `log.py:33 _get_defined_log_group_names`: the `awslogs-group` of every
container that has a truthy `logConfiguration` with truthy `options`;
the Python `set` is modelled by `dedup`. -/
def definedLogGroupNames (tasks : List TaskDef) : List String :=
  (tasks.flatMap (fun t =>
    t.containerDefinitions.filterMap (fun c =>
      (c.logConfiguration.bind (fun lc => lc.options)).map (fun o => o.awslogsGroup)))).dedup

/-- `service.py:66`: `[s for s in services if s['serviceName'] not in existing_services]`. -/
def missingServices (services : List ServiceCfg) (existing : List String) : List ServiceCfg :=
  services.filter (fun s => s.serviceName ∉ existing)

/-- `log.py:17`: `defined_log_group_names.difference(existing_log_group_names)`
on the list representation of the two sets. -/
def missingLogGroupNames (defined existing : List String) : List String :=
  defined.filter (fun n => n ∉ existing)

/-- `log.py:29`: `existing_log_group_names.difference(defined_log_group_names)`
on the list representation of the two sets. -/
def staleLogGroupNames (defined existing : List String) : List String :=
  existing.filter (fun n => n ∉ defined)

/-! ## Reconciler — services (`service.py`) -/

/-- `'service/' + cluster + '/' + serviceName` (`scale.py:48,72,110`, `alarm.py:32`). -/
def resourceIdOf (s : ServiceCfg) : String :=
  "service/" ++ s.cluster ++ "/" ++ s.serviceName

/-- `service.py:61 _create_missing_services`: the listing calls of
`_get_existing_services` (one event per cluster), then one create call per
missing service, in configured order. -/
def createMissingServicesCalls (services : List ServiceCfg) (env : Env) : List Call :=
  (clusterNames services).map Call.listServices ++
    (missingServices services (getExistingServices services env)).map
      (fun s => Call.createService s.serviceName)

/-- `service.py:91 _update_services`: one `update_service` call with
`forceNewDeployment=True` per configured service. -/
def updateServicesCalls (services : List ServiceCfg) : List Call :=
  services.map (fun s => Call.updateService s.serviceName true)

/-! ## Reconciler — scaling targets and policies (`scale.py`) -/

/-- `scale.py:108 register_scalable_targets`: register the target when the
service has a truthy `scale`, otherwise deregister it. -/
def registerScalableTargetsCalls (services : List ServiceCfg) : List Call :=
  services.map (fun s =>
    match s.scale with
    | some _ => Call.registerScalableTarget (resourceIdOf s)
    | none => Call.deregisterScalableTarget (resourceIdOf s))

/-- `scale.py:70 _is_stale_policy`: an existing policy is stale when no
configured service's policy matches it on both `PolicyName` and
`ResourceId`. -/
def isStalePolicy (ep : ExistingPolicy) (services : List ServiceCfg) : Bool :=
  !(services.any (fun s =>
    match s.scale with
    | none => false
    | some sc => sc.policies.any (fun p =>
        ep.policyName == p.policyName && ep.resourceId == resourceIdOf s)))

/-- `scale.py:93 _clean_stale_policies`: one delete call per stale existing
policy. -/
def cleanStalePoliciesCalls (services : List ServiceCfg) (existing : List ExistingPolicy) :
    List Call :=
  (existing.filter (fun ep => isStalePolicy ep services)).map
    (fun ep => Call.deleteScalingPolicy ep.policyName ep.resourceId)

/-- `scale.py:46 _create_or_update_all_policies`: one put call per declared
policy of every service with a truthy `scale` and truthy `policies`. -/
def createOrUpdatePoliciesCalls (services : List ServiceCfg) : List Call :=
  services.flatMap (fun s =>
    match s.scale with
    | none => []
    | some sc => sc.policies.map (fun p => Call.putScalingPolicy p.policyName (resourceIdOf s)))

/-- `scale.py:11 create_scaling_policies`: list existing policies, filter the
services with a `scale`, optionally delete stale policies, then put every
declared policy. -/
def createScalingPoliciesCalls (services : List ServiceCfg) (cleanStale : Bool) (env : Env) :
    List Call :=
  let existing := getExistingScalingPolicies env.scalingPolicyPages
  let filtered := services.filter (fun s => s.scale.isSome)
  Call.describeScalingPolicies ::
    ((if cleanStale then cleanStalePoliciesCalls filtered existing else []) ++
      createOrUpdatePoliciesCalls filtered)

/-! ## Reconciler — metrics (`metric.py`) -/

/-- `metric.py:18`: the `metric` dicts of the services that have one. -/
def definedMetrics (services : List ServiceCfg) : List MetricCfg :=
  services.filterMap (fun s => s.metric)

/-- `metric.py:19`: defined metrics whose `MetricName` is not among the
existing metric names. -/
def missingMetrics (services : List ServiceCfg) (existing : List String) : List MetricCfg :=
  (definedMetrics services).filter (fun m => m.metricName ∉ existing)

/-- `metric.py:10 create_metrics`: list existing metric names, then one
`put_metric_data` call per missing metric. -/
def createMetricsCalls (services : List ServiceCfg) (env : Env) : List Call :=
  Call.listMetrics ::
    (missingMetrics services (getExistingMetricNames env.metricPages)).map
      (fun m => Call.putMetricData m.ns m.metricName)

/-! ## Reconciler — alarms (`alarm.py`) -/

/-- `alarm.py:51 _validate_alarm_names`: every filtered service's alarm name
must start with `ecs:`; the Python code raises on the first violation, so a
run raises iff this is false. -/
def validAlarmNames (services : List ServiceCfg) : Bool :=
  services.all (fun s =>
    match s.alarm with
    | none => true
    | some a => strStartsWith a.alarmName "ecs:")

/-- `alarm.py:37 _clean_stale_alarms`: existing alarm names absent from the
defined names; one batch delete call when the stale list is nonempty. -/
def cleanStaleAlarmsCalls (existingAlarms : List String) (services : List ServiceCfg) :
    List Call :=
  let defined := services.filterMap (fun s => (s.alarm).map (fun a => a.alarmName))
  let stale := existingAlarms.filter (fun ea => ea ∉ defined)
  if stale.isEmpty then [] else [Call.deleteAlarms stale]

/-- `alarm.py:29 _create_or_update_alarms`: one `put_metric_alarm` call per
service with an alarm. -/
def createOrUpdateAlarmsCalls (services : List ServiceCfg) : List Call :=
  services.filterMap (fun s => (s.alarm).map (fun a => Call.putMetricAlarm a.alarmName))

/-- `alarm.py:12 create_scaling_alarms`: filter the services with an alarm,
validate their names (raising — `.error` — on violation before any remote
call of this phase), optionally list and delete stale alarms, list existing
scaling policies, then put every alarm. -/
def createScalingAlarmsCalls (services : List ServiceCfg) (cleanStale : Bool) (env : Env) :
    Except Unit (List Call) :=
  let filtered := services.filter (fun s => s.alarm.isSome)
  if validAlarmNames filtered then
    .ok ((if cleanStale then
            Call.describeAlarms :: cleanStaleAlarmsCalls (getExistingAlarms env.alarmPages) filtered
          else []) ++
         (Call.describeScalingPolicies :: createOrUpdateAlarmsCalls filtered))
  else
    .error ()

/-- `service.py:15-24`: the calls of the pipeline steps that precede
`create_scaling_alarms` (and hence precede the alarm-name validation). -/
def pipelineCallsBeforeAlarms (services : List ServiceCfg) (cleanStale : Bool) (env : Env) :
    List Call :=
  createMissingServicesCalls services env ++
    registerScalableTargetsCalls services ++
    createScalingPoliciesCalls services cleanStale env ++
    createMetricsCalls services env

/-- `service.py:11 update_all`: the fixed pipeline.  Returns the trace of
remote calls and whether the run raised (alarm-name validation is the only
raising step modelled here; it aborts the pipeline before the alarm calls
and the update calls). -/
def updateAll (services : List ServiceCfg) (cleanStale : Bool) (env : Env) :
    List Call × Bool :=
  match createScalingAlarmsCalls services cleanStale env with
  | .error _ => (pipelineCallsBeforeAlarms services cleanStale env, true)
  | .ok alarmCalls =>
    (pipelineCallsBeforeAlarms services cleanStale env ++ alarmCalls ++
      updateServicesCalls services, false)

/-! ## Reconciler — log groups and task registration (`log.py`, `task.py`) -/

/-- `task.py:141 _validate_log_definitions`: containers without a truthy
`logConfiguration` or truthy `options` are skipped; otherwise the group must
satisfy `startswith('/ecs')` and the stream prefix must equal `ecs`.  The
Python code raises on the first violation, so a run raises iff this is
false. -/
def validLogDefinitions (tasks : List TaskDef) : Bool :=
  tasks.all (fun t =>
    t.containerDefinitions.all (fun c =>
      match c.logConfiguration with
      | none => true
      | some lc =>
        match lc.options with
        | none => true
        | some o => strStartsWith o.awslogsGroup "/ecs" && o.awslogsStreamPfx == "ecs"))

/-- `log.py:11 handle_logs`: create each missing group, put the 7-day
retention policy on each defined group, and delete each stale group when the
clean flag is set. -/
def handleLogsCalls (tasks : List TaskDef) (cleanStaleLogGroups : Bool) (env : Env) :
    List Call :=
  let defined := definedLogGroupNames tasks
  let existing := getExistingLogGroupNames env.logGroupPages
  (missingLogGroupNames defined existing).map Call.createLogGroup ++
    defined.map (fun n => Call.putRetentionPolicy n 7) ++
    (if cleanStaleLogGroups then
      (staleLogGroupNames defined existing).map Call.deleteLogGroup
     else [])

/-- `task.py:15 register_all`: validate the log definitions first (raising —
`true` in the second component — before any remote call), then handle logs
and register one new revision per task. -/
def registerAllCalls (tasks : List TaskDef) (cleanStale : Bool) (env : Env) :
    List Call × Bool :=
  if validLogDefinitions tasks then
    (handleLogsCalls tasks cleanStale env ++
      tasks.map (fun t => Call.registerTaskDefinition t.family), false)
  else
    ([], true)

/-! ## Batching (`task.py:60 _chunks`, `log.py:132 _get_failed_container_ids`) -/

/-- `task.py:60 _chunks`: `for i in range(0, len(l), n): yield l[i:i+n]`,
written as take/drop recursion with the list length as fuel. -/
def chunksGo (n : Nat) : Nat → List String → List (List String)
  | 0, _ => []
  | _ + 1, [] => []
  | fuel + 1, x :: xs => (x :: xs).take n :: chunksGo n fuel ((x :: xs).drop n)

/-- `task.py:60 _chunks` entry. -/
def chunks (n : Nat) (l : List String) : List (List String) :=
  chunksGo n l.length l

/-- `log.py:132 _get_failed_container_ids`: the manual `start`/`end` batching
loop; each iteration issues one describe call with `l[start:end]`
(= `(l.drop start).take (e - start)`), then either stops (`end >= len(l)`),
moves `end` to `len(l)` (`end + 100 >= len(l)`), or advances by 100. -/
def failedBatchesGo (l : List String) : Nat → Nat → Nat → List (List String)
  | 0, _, _ => []
  | fuel + 1, start, e =>
    let batch := (l.drop start).take (e - start)
    if l.length ≤ e then [batch]
    else if l.length ≤ e + 100 then batch :: failedBatchesGo l fuel e l.length
    else batch :: failedBatchesGo l fuel e (e + 100)

/-- `log.py:132 _get_failed_container_ids` entry: `start = 0`, `end = 100`;
the fuel bounds the loop iterations, which never exceed `len(l)/100 + 2`. -/
def failedBatches (l : List String) : List (List String) :=
  failedBatchesGo l (l.length + 2) 0 100

/-! ## Error handling at the two deregistration sites -/

/-- Result of a modelled call site: did the run raise out of it? -/
inductive RemoteResult where
  | ok
  | raised
  deriving DecidableEq

/-- `scale.py:130 _deregister_scalable_target`: `except ClientError`
catches every `ClientError`; the `ObjectNotFoundException` comparison only
decides whether the "No need to deregister" debug line is logged (the second
component).  Only a non-`ClientError` exception escapes. -/
def deregisterScalableTarget : CallOutcome → RemoteResult × Bool
  | .success => (.ok, false)
  | .clientError code => (.ok, code == "ObjectNotFoundException")
  | .fatal => (.raised, false)

/-- Result of the `task.py:91` deregistration retry loop for one stale task
definition. -/
inductive DeregResult where
  | completed
  | raised
  | exhausted
  deriving DecidableEq

/-- `task.py:90-105`: the retry loop, fed the outcome of each successive
`deregister_task_definition` call and the current `slept` counter.  On
success the `else: break` fires; on a `ThrottlingException` the code sleeps
5 seconds and adds 5 to `slept`; on any other `ClientError` the handler does
nothing; either way the loop then breaks iff `slept >= 20`.  A
non-`ClientError` exception propagates.  Returns the loop result and the
number of calls attempted; `.exhausted` means every provided outcome was
consumed with the loop still running. -/
def deregLoop : List CallOutcome → Nat → DeregResult × Nat
  | [], _ => (.exhausted, 0)
  | o :: rest, slept =>
    match o with
    | .success => (.completed, 1)
    | .fatal => (.raised, 1)
    | .clientError code =>
      let slept' := if code == "ThrottlingException" then slept + 5 else slept
      if 20 ≤ slept' then (.completed, 1)
      else
        let r := deregLoop rest slept'
        (r.1, r.2 + 1)

/-! ## Auxiliary notions used by the statements -/

/-- The metric dicts (with their namespaces) of every page the metric lister
visits — what "existing metrics in any namespace" means for the responses. -/
def visitedMetricItems : List (Page MetricCfg) → List MetricCfg
  | [] => []
  | p :: rest =>
    p.items ++
      (match p.token with
       | none => []
       | some _ => visitedMetricItems rest)

/-- Calls of the alarm reconciler phase. -/
def isAlarmCall : Call → Bool
  | .describeAlarms => true
  | .deleteAlarms _ => true
  | .putMetricAlarm _ => true
  | _ => false

/-- `update_service` calls. -/
def isUpdateServiceCall : Call → Bool
  | .updateService _ _ => true
  | _ => false

/-! ## Concrete fixtures for the witnesses and counterexamples -/

/-- An environment in which every remote listing returns a single empty,
token-less response. -/
def emptyEnv : Env :=
  ⟨fun _ => [], [], [], [], []⟩

/-- Service `a` on cluster `c`, no scale/alarm/metric. -/
def svcA : ServiceCfg := ⟨"a", "c", none, none, none⟩

/-- Service `b` on cluster `c`, no scale/alarm/metric. -/
def svcB : ServiceCfg := ⟨"b", "c", none, none, none⟩

/-- Service `a` on cluster `c` carrying an alarm whose name lacks the
`ecs:` prefix. -/
def svcBadAlarm : ServiceCfg := ⟨"a", "c", none, some ⟨"bad", [], []⟩, none⟩

/-- Environment in which cluster `c` already has exactly service `a`. -/
def envWithA : Env :=
  ⟨fun c => if c = "c" then [⟨["arn:aws:ecs:eu-west-1:1:service/a"], none⟩] else [],
   [], [], [], []⟩

/-- A task whose only container logs to group `/ecsx` with stream prefix
`ecs`: the group name lacks the `/ecs/` path prefix yet satisfies the
code's `startswith('/ecs')` check. -/
def badLogTask : TaskDef := ⟨"fam", [⟨"c1", some ⟨some ⟨"/ecsx", "ecs"⟩⟩⟩]⟩

/-- Log-stream pages whose first response carries a continuation token:
page one holds `s1`, page two holds `s2`. -/
def twoStreamPages : List (Page String) := [⟨["s1"], some "t"⟩, ⟨["s2"], none⟩]

/-! ## Helper lemmas -/

theorem mem_getExistingLogGroupNames {pages : List (Page String)} {n : String}
    (h : n ∈ getExistingLogGroupNames pages) : isEcsLogGroupName n = true := by
  induction pages with
  | nil => simp [getExistingLogGroupNames] at h
  | cons p rest ih =>
    rw [getExistingLogGroupNames] at h
    rcases List.mem_append.mp h with h1 | h2
    · exact (List.mem_filter.mp h1).2
    · cases htok : p.token with
      | none => rw [htok] at h2; simp at h2
      | some t => rw [htok] at h2; exact ih h2

theorem mem_getExistingAlarms {pages : List (Page String)} {n : String}
    (h : n ∈ getExistingAlarms pages) : strStartsWith n "ecs:" = true := by
  induction pages with
  | nil => simp [getExistingAlarms] at h
  | cons p rest ih =>
    rw [getExistingAlarms] at h
    rcases List.mem_append.mp h with h1 | h2
    · exact (List.mem_filter.mp h1).2
    · cases htok : p.token with
      | none => rw [htok] at h2; simp at h2
      | some t => rw [htok] at h2; exact ih h2

theorem getExistingMetricNames_eq (pages : List (Page MetricCfg)) :
    getExistingMetricNames pages = (visitedMetricItems pages).map (fun m => m.metricName) := by
  induction pages with
  | nil => rfl
  | cons p rest ih =>
    rw [getExistingMetricNames, visitedMetricItems, List.map_append]
    cases p.token with
    | none => simp
    | some t => simp [ih]

theorem take_drop_append (l : List String) (start e : Nat) (h : start ≤ e) :
    (l.drop start).take (e - start) ++ l.drop e = l.drop start := by
  conv_rhs => rw [← List.take_append_drop (e - start) (l.drop start)]
  congr 1
  rw [List.drop_drop]
  congr 1
  omega

theorem chunksGo_join (n : Nat) (hn : 0 < n) :
    ∀ (fuel : Nat) (l : List String), l.length ≤ fuel → (chunksGo n fuel l).flatten = l := by
  intro fuel
  induction fuel with
  | zero =>
    intro l hl
    rw [List.eq_nil_of_length_eq_zero (Nat.le_zero.mp hl)]
    rfl
  | succ k ih =>
    intro l hl
    cases l with
    | nil => rfl
    | cons x xs =>
      rw [chunksGo, List.flatten_cons, ih]
      · exact List.take_append_drop n (x :: xs)
      · rw [List.length_drop]
        simp only [List.length_cons] at hl ⊢
        omega

theorem chunksGo_sizes (n : Nat) :
    ∀ (fuel : Nat) (l : List String), ∀ c ∈ chunksGo n fuel l, c.length ≤ n := by
  intro fuel
  induction fuel with
  | zero => intro l c hc; simp [chunksGo] at hc
  | succ k ih =>
    intro l c hc
    cases l with
    | nil => simp [chunksGo] at hc
    | cons x xs =>
      rw [chunksGo] at hc
      rcases List.mem_cons.mp hc with rfl | hc2
      · exact List.length_take_le n (x :: xs)
      · exact ih _ c hc2

theorem failedBatchesGo_join (l : List String) :
    ∀ (fuel start e : Nat), start ≤ e → 1 ≤ fuel → l.length + 100 ≤ e + 100 * fuel →
      (failedBatchesGo l fuel start e).flatten = l.drop start := by
  intro fuel
  induction fuel with
  | zero => intro start e _ h1 _; omega
  | succ k ih =>
    intro start e hse _ hbound
    rw [failedBatchesGo]
    split
    · rename_i hle
      rw [List.flatten_cons, List.flatten_nil, List.append_nil, List.take_of_length_le]
      rw [List.length_drop]
      omega
    · rename_i hgt
      split
      · rename_i hle2
        rw [List.flatten_cons, ih e l.length (by omega) (by omega) (by omega)]
        exact take_drop_append l start e hse
      · rename_i hgt2
        rw [List.flatten_cons, ih e (e + 100) (by omega) (by omega) (by omega)]
        exact take_drop_append l start e hse

theorem failedBatchesGo_sizes (l : List String) :
    ∀ (fuel start e : Nat), e ≤ start + 100 →
      ∀ b ∈ failedBatchesGo l fuel start e, b.length ≤ 100 := by
  intro fuel
  induction fuel with
  | zero => intro start e _ b hb; simp [failedBatchesGo] at hb
  | succ k ih =>
    intro start e he b hb
    rw [failedBatchesGo] at hb
    have hbatch : ((l.drop start).take (e - start)).length ≤ 100 := by
      have := List.length_take_le (e - start) (l.drop start)
      omega
    split at hb
    · rcases List.mem_singleton.mp hb with rfl
      exact hbatch
    · rename_i hgt
      split at hb
      · rename_i hle2
        rcases List.mem_cons.mp hb with rfl | hb2
        · exact hbatch
        · exact ih e l.length (by omega) b hb2
      · rcases List.mem_cons.mp hb with rfl | hb2
        · exact hbatch
        · exact ih e (e + 100) (by omega) b hb2

theorem deregLoop_no_fatal {outcomes : List CallOutcome}
    (h : CallOutcome.fatal ∉ outcomes) :
    ∀ slept : Nat, (deregLoop outcomes slept).1 ≠ DeregResult.raised := by
  induction outcomes with
  | nil => intro slept; simp [deregLoop]
  | cons o rest ih =>
    intro slept
    simp only [List.mem_cons, not_or] at h
    obtain ⟨h1, h2⟩ := h
    cases o with
    | success => simp [deregLoop]
    | fatal => exact absurd rfl h1
    | clientError code =>
      rw [deregLoop]
      split <;> split
      · simp
      · simpa using ih h2 _
      · simp
      · simpa using ih h2 _

theorem mem_createMissingServicesCalls {services : List ServiceCfg} {env : Env} {c : Call}
    (hc : c ∈ createMissingServicesCalls services env) :
    isAlarmCall c = false ∧ isUpdateServiceCall c = false := by
  simp only [createMissingServicesCalls, List.mem_append, List.mem_map] at hc
  rcases hc with ⟨x, _, rfl⟩ | ⟨s, _, rfl⟩ <;> exact ⟨rfl, rfl⟩

theorem mem_registerScalableTargetsCalls {services : List ServiceCfg} {c : Call}
    (hc : c ∈ registerScalableTargetsCalls services) :
    isAlarmCall c = false ∧ isUpdateServiceCall c = false := by
  simp only [registerScalableTargetsCalls, List.mem_map] at hc
  obtain ⟨s, _, rfl⟩ := hc
  cases s.scale <;> exact ⟨rfl, rfl⟩

theorem mem_createScalingPoliciesCalls {services : List ServiceCfg} {cs : Bool} {env : Env}
    {c : Call} (hc : c ∈ createScalingPoliciesCalls services cs env) :
    isAlarmCall c = false ∧ isUpdateServiceCall c = false := by
  simp only [createScalingPoliciesCalls, List.mem_cons, List.mem_append] at hc
  rcases hc with rfl | hc2 | hc3
  · exact ⟨rfl, rfl⟩
  · rcases cs with _ | _
    · simp at hc2
    · simp only [cleanStalePoliciesCalls, if_true, List.mem_map] at hc2
      obtain ⟨ep, _, rfl⟩ := hc2
      exact ⟨rfl, rfl⟩
  · simp only [createOrUpdatePoliciesCalls, List.mem_flatMap] at hc3
    obtain ⟨s, _, hmem⟩ := hc3
    cases hsc : s.scale with
    | none => rw [hsc] at hmem; simp at hmem
    | some sc =>
      rw [hsc] at hmem
      simp only [List.mem_map] at hmem
      obtain ⟨p, _, rfl⟩ := hmem
      exact ⟨rfl, rfl⟩

theorem mem_createMetricsCalls {services : List ServiceCfg} {env : Env} {c : Call}
    (hc : c ∈ createMetricsCalls services env) :
    isAlarmCall c = false ∧ isUpdateServiceCall c = false := by
  simp only [createMetricsCalls, List.mem_cons, List.mem_map] at hc
  rcases hc with rfl | ⟨m, _, rfl⟩ <;> exact ⟨rfl, rfl⟩

theorem mem_pipelineCallsBeforeAlarms {services : List ServiceCfg} {cs : Bool} {env : Env}
    {c : Call} (hc : c ∈ pipelineCallsBeforeAlarms services cs env) :
    isAlarmCall c = false ∧ isUpdateServiceCall c = false := by
  simp only [pipelineCallsBeforeAlarms, List.mem_append] at hc
  rcases hc with ((h | h) | h) | h
  · exact mem_createMissingServicesCalls h
  · exact mem_registerScalableTargetsCalls h
  · exact mem_createScalingPoliciesCalls h
  · exact mem_createMetricsCalls h

theorem validAlarmNames_false_of_bad {services : List ServiceCfg} {s : ServiceCfg}
    {a : AlarmCfg} (hs : s ∈ services) (ha : s.alarm = some a)
    (hbad : strStartsWith a.alarmName "ecs:" = false) :
    validAlarmNames (services.filter (fun s => s.alarm.isSome)) = false := by
  have hmem : s ∈ services.filter (fun s => s.alarm.isSome) := by
    rw [List.mem_filter]
    exact ⟨hs, by rw [ha]; rfl⟩
  apply Bool.eq_false_iff.mpr
  intro hall
  rw [validAlarmNames, List.all_eq_true] at hall
  have hv := hall s hmem
  rw [ha] at hv
  simp only at hv
  rw [hbad] at hv
  exact Bool.false_ne_true hv

theorem createScalingAlarmsCalls_error {services : List ServiceCfg} {cs : Bool} {env : Env}
    (hv : validAlarmNames (services.filter (fun s => s.alarm.isSome)) = false) :
    createScalingAlarmsCalls services cs env = .error () := by
  rw [createScalingAlarmsCalls]
  simp only [hv]
  rfl

/-! ## Claim theorems -/

/-- C1: for every defined and existing name set, the reconciler's missing
set is `defined \ existing` and its stale set is `existing \ defined`
(`log.py:17,29`); consequently `missing ∪ (defined ∩ existing) = defined`,
`stale ∪ (defined ∩ existing) = existing` and `missing ∩ stale = ∅`; and the
service reconciler's missing list (`service.py:66`) holds exactly the
configured services whose name, compared by string equality, is not among
the existing names. -/
theorem differ_missing_stale_partition
    (defined existing : List String) (services : List ServiceCfg)
    (existingSvc : List String) (s : ServiceCfg) :
    ((missingLogGroupNames defined existing).toFinset =
        defined.toFinset \ existing.toFinset ∧
      (staleLogGroupNames defined existing).toFinset =
        existing.toFinset \ defined.toFinset ∧
      (missingLogGroupNames defined existing).toFinset ∪
          (defined.toFinset ∩ existing.toFinset) = defined.toFinset ∧
      (staleLogGroupNames defined existing).toFinset ∪
          (defined.toFinset ∩ existing.toFinset) = existing.toFinset ∧
      (missingLogGroupNames defined existing).toFinset ∩
          (staleLogGroupNames defined existing).toFinset = ∅) ∧
    (s ∈ missingServices services existingSvc ↔
      s ∈ services ∧ s.serviceName ∉ existingSvc) := by
  have hm : (missingLogGroupNames defined existing).toFinset =
      defined.toFinset \ existing.toFinset := by
    ext a
    simp [missingLogGroupNames, List.mem_filter]
  have hst : (staleLogGroupNames defined existing).toFinset =
      existing.toFinset \ defined.toFinset := by
    ext a
    simp [staleLogGroupNames, List.mem_filter]
  refine ⟨⟨hm, hst, ?_, ?_, ?_⟩, ?_⟩
  · rw [hm]
    ext a
    simp only [Finset.mem_union, Finset.mem_sdiff, Finset.mem_inter]
    tauto
  · rw [hst]
    ext a
    simp only [Finset.mem_union, Finset.mem_sdiff, Finset.mem_inter]
    tauto
  · rw [hm, hst]
    ext a
    simp only [Finset.mem_inter, Finset.mem_sdiff, Finset.not_mem_empty, iff_false]
    tauto
  · simp [missingServices, List.mem_filter]

/-- C2 (code bug): in the `clean_stale_tasks` retry loop (`task.py:90-105`),
a persistent `ClientError` whose code is not `ThrottlingException` is caught
and the call is re-attempted on every iteration without sleeping — `n`
provided outcomes yield `n` attempts with the loop still running, so the
call is not "attempted at most once" and the loop never gives up — whereas
a persistent `ThrottlingException` does stop the loop without raising after
exactly 4 attempts, when the cumulative sleep reaches 20 seconds. -/
theorem cleanStaleTasks_retry_behavior :
    (∀ n : Nat,
      deregLoop (List.replicate n (CallOutcome.clientError "AccessDenied")) 0 =
        (DeregResult.exhausted, n)) ∧
    (∀ n : Nat,
      deregLoop (List.replicate (n + 4) (CallOutcome.clientError "ThrottlingException")) 0 =
        (DeregResult.completed, 4)) := by
  constructor
  · intro n
    induction n with
    | zero => rfl
    | succ k ih =>
      rw [List.replicate_succ, deregLoop]
      simp [ih]
  · intro n
    rfl

/-- C4 (code bug): the `_get_existing_logs` pagination loop (`log.py:186-206`)
drops the items of every page after the first (its `extend` sits in the
no-token branch only): on two pages holding `s1` and `s2` it returns `[s1]`,
not the concatenation `[s1, s2]` of all visited pages' items. -/
theorem getLogStreams_drops_later_pages :
    getLogStreams twoStreamPages = ["s1"] ∧
    visitedItems twoStreamPages = ["s1", "s2"] ∧
    getLogStreams twoStreamPages ≠ visitedItems twoStreamPages := by
  refine ⟨rfl, rfl, ?_⟩
  decide

/-- C7 (code bug): `_validate_log_definitions` (`task.py:141-157`) checks
`startswith('/ecs')`, not the mandated `/ecs/` path prefix its own error
message states: the group name `/ecsx` lacks the `/ecs/` prefix, yet
validation accepts it and `register_all` proceeds to remote calls
(including creating the ill-named group) instead of raising. -/
theorem validateLogDefinitions_accepts_nonEcsPath :
    strStartsWith "/ecsx" "/ecs/" = false ∧
    validLogDefinitions [badLogTask] = true ∧
    (registerAllCalls [badLogTask] false emptyEnv).2 = false ∧
    Call.createLogGroup "/ecsx" ∈ (registerAllCalls [badLogTask] false emptyEnv).1 := by
  refine ⟨by decide, by decide, by decide, by decide⟩

/-- C3 counterexample: a `ClientError` with code `AccessDenied` — neither a
throttling error during task deregistration nor a "not found" during
scalable-target deregistration — does not propagate out of
`_deregister_scalable_target` (`scale.py:130-141`): the call site returns
normally (and does not even log the "No need to deregister" line). -/
theorem deregisterScalableTarget_swallows_generic_error :
    deregisterScalableTarget (CallOutcome.clientError "AccessDenied") =
      (RemoteResult.ok, false) ∧
    "AccessDenied" ≠ "ObjectNotFoundException" := by
  exact ⟨rfl, by decide⟩

/-- C3 amended: at the two deregistration sites every `ClientError` is
caught, whatever its code: `_deregister_scalable_target` raises iff the
failure is not a `ClientError` at all, and the `clean_stale_tasks` loop
never raises when no outcome is a non-`ClientError` exception.  Only
non-`ClientError` failures propagate from these sites. -/
theorem deregistration_clientError_never_raises
    (o : CallOutcome) (outcomes : List CallOutcome) (slept : Nat)
    (h : CallOutcome.fatal ∉ outcomes) :
    ((deregisterScalableTarget o).1 = RemoteResult.raised ↔ o = CallOutcome.fatal) ∧
    (deregLoop outcomes slept).1 ≠ DeregResult.raised := by
  constructor
  · cases o <;> simp [deregisterScalableTarget]
  · exact deregLoop_no_fatal h slept

/-- Witness for `deregistration_clientError_never_raises` at a concrete
generic error. -/
theorem deregistration_clientError_never_raises_w :
    ((deregisterScalableTarget (CallOutcome.clientError "Boom")).1 = RemoteResult.raised ↔
      CallOutcome.clientError "Boom" = CallOutcome.fatal) ∧
    (deregLoop [CallOutcome.clientError "Boom"] 0).1 ≠ DeregResult.raised :=
  deregistration_clientError_never_raises (CallOutcome.clientError "Boom")
    [CallOutcome.clientError "Boom"] 0 (by decide)

/-- C5: `_update_services` issues exactly one forced-new-deployment update
call per configured service entry; and on the spec's example — services `a`
and `b` on cluster `c` with only `a` existing — the missing set is `[b]`,
only `b` receives a create call, and both `a` and `b` receive an update
call, as the full `update_all` trace shows. -/
theorem service_reconciler_updates_every_service :
    (∀ (services : List ServiceCfg) (name : String),
      (updateServicesCalls services).count (Call.updateService name true) =
        (services.map (fun s => s.serviceName)).count name) ∧
    missingServices [svcA, svcB] (getExistingServices [svcA, svcB] envWithA) = [svcB] ∧
    (updateAll [svcA, svcB] false envWithA).1 =
      [Call.listServices "c", Call.createService "b",
       Call.deregisterScalableTarget "service/c/a",
       Call.deregisterScalableTarget "service/c/b",
       Call.describeScalingPolicies, Call.listMetrics, Call.describeScalingPolicies,
       Call.updateService "a" true, Call.updateService "b" true] ∧
    (updateAll [svcA, svcB] false envWithA).2 = false := by
  refine ⟨?_, by decide, by decide, by decide⟩
  intro services name
  induction services with
  | nil => rfl
  | cons s rest ih =>
    by_cases hc : s.serviceName = name <;>
      simp [updateServicesCalls, List.count_cons, hc, ih] <;>
      simp [updateServicesCalls] at ih <;>
      omega

/-- C6 counterexample: deploying a single service `a` (absent from cluster
`c`) whose alarm name `bad` lacks the `ecs:` prefix does raise, but only
after remote calls were issued: the trace of the failed `update_all` run
contains the `create_service` call for `a`, refuting "no create, update,
list, or delete call is issued before the alarm-name validation fails". -/
theorem updateAll_calls_before_alarm_validation :
    (updateAll [svcBadAlarm] false emptyEnv).2 = true ∧
    Call.createService "a" ∈ (updateAll [svcBadAlarm] false emptyEnv).1 := by
  exact ⟨by decide, by decide⟩

/-- C6 amended: a configuration with an alarm name lacking the `ecs:` prefix
makes `update_all` raise before any alarm-related remote call
(describe-alarms, delete-alarms, put-metric-alarm) and before any service
update call — but the service listing/creation, scalable-target,
scaling-policy and metric calls of the earlier pipeline steps are issued
before the validation failure. -/
theorem updateAll_invalid_alarm_name_raises
    (services : List ServiceCfg) (cleanStale : Bool) (env : Env)
    (h : ∃ s ∈ services, ∃ a, s.alarm = some a ∧ strStartsWith a.alarmName "ecs:" = false) :
    (updateAll services cleanStale env).2 = true ∧
    ∀ c ∈ (updateAll services cleanStale env).1,
      isAlarmCall c = false ∧ isUpdateServiceCall c = false := by
  obtain ⟨s, hs, a, ha, hbad⟩ := h
  have herr := @createScalingAlarmsCalls_error services cleanStale env
    (validAlarmNames_false_of_bad hs ha hbad)
  rw [updateAll, herr]
  exact ⟨rfl, fun c hc => mem_pipelineCallsBeforeAlarms hc⟩

/-- Witness for `updateAll_invalid_alarm_name_raises` on the concrete
one-service configuration with alarm name `bad`. -/
theorem updateAll_invalid_alarm_name_raises_w :
    (updateAll [svcBadAlarm] false emptyEnv).2 = true ∧
    (isAlarmCall (Call.listServices "c") = false ∧
      isUpdateServiceCall (Call.listServices "c") = false) :=
  ⟨(updateAll_invalid_alarm_name_raises [svcBadAlarm] false emptyEnv
      ⟨svcBadAlarm, by decide, ⟨"bad", [], []⟩, rfl, by decide⟩).1,
   (updateAll_invalid_alarm_name_raises [svcBadAlarm] false emptyEnv
      ⟨svcBadAlarm, by decide, ⟨"bad", [], []⟩, rfl, by decide⟩).2
     (Call.listServices "c") (by decide)⟩

/-- C8: the batched describe calls respect the provider limits and partition
their input: `_chunks(services, 10)` (`task.py:60`, used by
`describe_services`) yields chunks of at most 10 whose concatenation is the
input, and the manual batching of `_get_failed_container_ids`
(`log.py:132-158`, `describe_container_instances`) yields batches of at most
100 whose concatenation is the input — every input item lands in exactly one
batch, in order. -/
theorem batching_respects_limits (l ids : List String) :
    (chunks 10 l).flatten = l ∧
    ((chunks 10 l).all fun c => c.length ≤ 10) = true ∧
    (failedBatches ids).flatten = ids ∧
    ((failedBatches ids).all fun b => b.length ≤ 100) = true := by
  refine ⟨?_, ?_, ?_, ?_⟩
  · exact chunksGo_join 10 (by omega) l.length l le_rfl
  · rw [List.all_eq_true]
    intro c hc
    simpa using chunksGo_sizes 10 l.length l c hc
  · have := failedBatchesGo_join ids (ids.length + 2) 0 100 (by omega) (by omega) (by omega)
    simpa [failedBatches] using this
  · rw [List.all_eq_true]
    intro b hb
    have := failedBatchesGo_sizes ids (ids.length + 2) 0 100 (by omega) b hb
    simpa using this

/-- C9: every name a stale-cleanup operation deletes lies inside the naming
convention: a `delete_log_group` call issued by `handle_logs` with cleanup
enabled only ever names a group with exactly 3 `/`-separated segments whose
second segment is `ecs` (`log.py:213-242,55-59`), and every alarm name in
the batch `delete_alarms` call of `_clean_stale_alarms` starts with `ecs:`
(`alarm.py:37-48,64-89`). -/
theorem stale_deletes_within_convention :
    (∀ (tasks : List TaskDef) (env : Env) (n : String),
      Call.deleteLogGroup n ∈ handleLogsCalls tasks true env →
      isEcsLogGroupName n = true) ∧
    (∀ (pages : List (Page String)) (services : List ServiceCfg)
        (nms : List String) (n : String),
      Call.deleteAlarms nms ∈ cleanStaleAlarmsCalls (getExistingAlarms pages) services →
      n ∈ nms → strStartsWith n "ecs:" = true) := by
  constructor
  · intro tasks env n h
    simp only [handleLogsCalls, if_true, List.mem_append, List.mem_map] at h
    rcases h with (⟨x, _, hx⟩ | ⟨x, _, hx⟩) | ⟨x, hmem, hx⟩
    · exact absurd hx (by simp)
    · exact absurd hx (by simp)
    · obtain rfl : x = n := by injection hx
      exact mem_getExistingLogGroupNames
        (List.mem_filter.mp hmem).1
  · intro pages services nms n h hn
    rw [cleanStaleAlarmsCalls] at h
    split at h
    · simp at h
    · have h2 := List.mem_singleton.mp h
      injection h2 with h3
      subst h3
      exact mem_getExistingAlarms (List.mem_filter.mp hn).1

/-- Witness for `stale_deletes_within_convention` on a concrete stale log
group `/ecs/old` and stale alarm `ecs:old`. -/
theorem stale_deletes_within_convention_w :
    isEcsLogGroupName "/ecs/old" = true ∧ strStartsWith "ecs:old" "ecs:" = true :=
  ⟨stale_deletes_within_convention.1 []
      ⟨fun _ => [], [], [], [], [⟨["/ecs/old"], none⟩]⟩ "/ecs/old" (by decide),
   stale_deletes_within_convention.2 [⟨["ecs:old"], none⟩] [] ["ecs:old"] "ecs:old"
      (by decide) (by decide)⟩

/-- C10: missing-metric detection compares metric names only, ignoring the
namespace: a defined metric is missing (and receives a `put_metric_data`
call) iff no metric of any visited page — whatever its namespace — carries
its `MetricName` (`metric.py:10-40`). -/
theorem missing_metrics_ignore_namespace
    (services : List ServiceCfg) (env : Env) (d : MetricCfg) (ns nm : String) :
    (d ∈ missingMetrics services (getExistingMetricNames env.metricPages) ↔
      d ∈ definedMetrics services ∧
        ∀ e ∈ visitedMetricItems env.metricPages, e.metricName ≠ d.metricName) ∧
    (Call.putMetricData ns nm ∈ createMetricsCalls services env ↔
      ∃ m ∈ missingMetrics services (getExistingMetricNames env.metricPages),
        m.ns = ns ∧ m.metricName = nm) := by
  constructor
  · rw [missingMetrics, getExistingMetricNames_eq]
    constructor
    · intro hmem
      obtain ⟨hd, hnot⟩ := List.mem_filter.mp hmem
      rw [decide_eq_true_eq] at hnot
      refine ⟨hd, fun e he heq => ?_⟩
      exact hnot (List.mem_map.mpr ⟨e, he, heq⟩)
    · rintro ⟨hd, hall⟩
      refine List.mem_filter.mpr ⟨hd, ?_⟩
      rw [decide_eq_true_eq]
      intro hmm
      obtain ⟨e, he, heq⟩ := List.mem_map.mp hmm
      exact hall e he heq
  · simp only [createMetricsCalls, List.mem_cons, List.mem_map]
    constructor
    · rintro (h | ⟨m, hm, hput⟩)
      · exact absurd h (by simp)
      · injection hput with h1 h2
        exact ⟨m, hm, h1, h2⟩
    · rintro ⟨m, hm, rfl, rfl⟩
      exact Or.inr ⟨m, hm, rfl⟩

end Aeropress
